import Mathlib

/-!
Verification development for the PKSM anonymous-page deduplication engine
(src/mm/pksm.c).  Each section embeds one component of the C source as
executable Lean definitions and proves the properties claimed in the
specification about that component.  Machine integers are modelled as `Nat`
with explicit reduction modulo `2^32` where 32-bit overflow matters; flag
bits packed into `rmap_item->address` are modelled as a structure of
booleans (one field per `*_FLAG` bit).
-/

namespace PKSM

/-! ## Sampled rolling hash (pksm.c lines 313-338, 924-949)

`HASH_FROM_TO(from, to)` executes, for each `index` in `[from, to)`:
`pos = pksm_random_table[index]; hash += key[pos];
 hash += (hash << 8); hash ^= (hash >> 12);` on a `u32` accumulator.
`pksm_calc_checksum` starts the accumulator at `0xdeadbeef`, and
`calc_checksum` runs it over `RSAD_STRENGTH_FULL >> 4` table entries where
`RSAD_STRENGTH_FULL = PAGE_SIZE / sizeof(u32)`. -/

def U32 : Nat := 4294967296

def PAGE_SIZE : Nat := 4096

def RSAD_STRENGTH_FULL : Nat := PAGE_SIZE / 4

/-- One iteration of `HASH_FROM_TO` on the `u32` accumulator `h` with the
selected word `w`: `hash += w; hash += hash << 8; hash ^= hash >> 12`. -/
def hashStep (h w : Nat) : Nat :=
  let a := (h + w) % U32
  let b := (a + ((a <<< 8) % U32)) % U32
  b ^^^ (b >>> 12)

/-- `pksm_calc_checksum(addr, hash_strength)`: fold `hashStep` over the words
selected by the first `hash_strength` entries of the random offset table,
starting from `0xdeadbeef`.  `table` models `pksm_random_table`, `key`
models the page read as an array of `u32` words. -/
def pksm_calc_checksum (table key : Nat → Nat) (hash_strength : Nat) : Nat :=
  (List.range hash_strength).foldl (fun h i => hashStep h (key (table i))) 0xdeadbeef

/-- `calc_checksum(page)`: `pksm_calc_checksum(addr, RSAD_STRENGTH_FULL >> 4)`. -/
def calc_checksum (table key : Nat → Nat) : Nat :=
  pksm_calc_checksum table key (RSAD_STRENGTH_FULL >>> 4)

/-- The hash-step formula as the specification claim words it:
`h = ((h + w) << 8) ^ ((h + w) >> 12)` on 32-bit values. -/
def claimedHashStep (h w : Nat) : Nat :=
  let s := (h + w) % U32
  ((s <<< 8) % U32) ^^^ (s >>> 12)

/-- The whole checksum as the specification claim words it. -/
def claimedChecksum (table key : Nat → Nat) (hash_strength : Nat) : Nat :=
  (List.range hash_strength).foldl (fun h i => claimedHashStep h (key (table i))) 0xdeadbeef

/-- The amended per-word update, written independently of `hashStep`:
with `s = (h + w) mod 2^32`, the new accumulator is
`t ^ (t / 2^12)` where `t = (s + s * 2^8) mod 2^32`. -/
def amendedStep (h w : Nat) : Nat :=
  let s := (h + w) % 4294967296
  let t := (s + s * 256) % 4294967296
  t ^^^ t / 4096

/-- Folding `amendedStep` over an explicit list of selected words. -/
def amendedFold (h : Nat) : List Nat → Nat
  | [] => h
  | w :: ws => amendedFold (amendedStep h w) ws

/-- The list of page words selected by the first `n` permutation-table
entries. -/
def selectedWords (table key : Nat → Nat) (n : Nat) : List Nat :=
  (List.range n).map (fun i => key (table i))

theorem hashStep_eq_amendedStep (h w : Nat) : hashStep h w = amendedStep h w := by
  simp only [hashStep, amendedStep, U32]
  generalize (h + w) % 4294967296 = s
  have h8 : s <<< 8 = s * 256 := by
    rw [Nat.shiftLeft_eq]
  have h12 : ∀ t : Nat, t >>> 12 = t / 4096 := by
    intro t
    rw [Nat.shiftRight_eq_div_pow]
  rw [h8, h12]
  have hm : (s + s * 256 % 4294967296) % 4294967296
      = (s + s * 256) % 4294967296 := by omega
  rw [hm]

theorem amendedFold_eq_foldl (h : Nat) (ws : List Nat) :
    amendedFold h ws = ws.foldl amendedStep h := by
  induction ws generalizing h with
  | nil => rfl
  | cons x xs ih => simp [amendedFold, ih, List.foldl]

/-- C2 (counterexample): the hash formula written in the claim,
`h = ((h + w) << 8) ^ ((h + w) >> 12)`, does not compute the checksum the
code computes: already on a single all-zero word (identity permutation)
the two disagree.  The code's step is `h += w; h += h << 8; h ^= h >> 12`. -/
theorem c2_hash_formula_counterexample :
    pksm_calc_checksum (fun i => i) (fun _ => 0) 1
      ≠ claimedChecksum (fun i => i) (fun _ => 0) 1 := by
  decide

/-- C2 (amended): for every permutation table and every page, the content
hash is computed by folding the `N >> 4` 32-bit words selected by the
permutation table (`N = PAGE_SIZE/4`) into a 32-bit accumulator starting
at `0xdeadbeef`, where each step updates the accumulator as
`h := t ^ (t >> 12)` with `t = (s + (s << 8)) mod 2^32` and
`s = (h + w) mod 2^32` for the selected word `w`. -/
theorem c2_hash_amended (table key : Nat → Nat) :
    calc_checksum table key
      = amendedFold 0xdeadbeef (selectedWords table key (RSAD_STRENGTH_FULL >>> 4)) := by
  unfold calc_checksum pksm_calc_checksum selectedWords
  rw [amendedFold_eq_foldl, List.foldl_map]
  simp only [hashStep_eq_amendedStep]

/-! ## Stable-tree descent (pksm.c `stable_tree_search`, lines 1321-1375,
and `stable_tree_insert`, lines 1384-1446)

A tree node is an `rmap_item`; the descent compares the query checksum
against the node checksum (`hash_cmp`).  At each visited node the code
first checks `(tree_rmap_item->address & DELLIST_FLAG) || !tree_rmap_item->page`
and on a hit calls `remove_rmap_item_from_tree` and restarts from the root
(`goto retry`); only then does it try-acquire a strong page reference
(`get_ksm_page`), and on failure it returns `NULL` (search) or
`PKSM_FAULT_DROP` (insert) immediately, without any eviction.  `acquireOk`
models whether `get_ksm_page` succeeds on the node's page. -/

structure TNode where
  id : Nat
  checksum : Nat
  dellist : Bool
  hasPage : Bool
  acquireOk : Bool
deriving DecidableEq, Repr

inductive STree where
  | leaf : STree
  | node : STree → TNode → STree → STree
deriving DecidableEq, Repr

def STree.nodes : STree → List TNode
  | .leaf => []
  | .node l v r => v :: (l.nodes ++ r.nodes)

/-- One descent pass, faithful to the body of the `while (*new)` loop. -/
inductive PassResult where
  | evict : Nat → PassResult
  | found : TNode → PassResult
  | notFound : PassResult
  | acquireFail : PassResult
deriving DecidableEq, Repr

def stablePass (q : Nat) : STree → PassResult
  | .leaf => .notFound
  | .node l v r =>
    if v.dellist || !v.hasPage then .evict v.id
    else if !v.acquireOk then .acquireFail
    else if q < v.checksum then stablePass q l
    else if v.checksum < q then stablePass q r
    else .found v

/-- Structural removal of the node evicted by `remove_rmap_item_from_tree`
(the rb-tree `rb_erase`): the named node leaves the tree, every other node
stays. -/
def STree.graft : STree → STree → STree
  | .leaf, r => r
  | .node a x b, r => .node a x (b.graft r)

def evictId (i : Nat) : STree → STree
  | .leaf => .leaf
  | .node l v r =>
    if v.id = i then l.graft r
    else .node (evictId i l) v (evictId i r)

/-- `stable_tree_search(page)`: the `retry` loop, with explicit fuel for the
restarts (each restart is preceded by an eviction, so `size + 1` fuel is
always enough).  Returns the found node (the page whose strong reference is
transferred to the caller), the final tree, and the list of evicted node
ids.  `qKsm` models the leading `if (PageKsm(page)) return NULL;`. -/
def stable_tree_search : Nat → Bool → Nat → STree → Option TNode × STree × List Nat
  | 0, _, _, t => (none, t, [])
  | _ + 1, true, _, t => (none, t, [])
  | fuel + 1, false, q, t =>
    match stablePass q t with
    | .found v => (some v, t, [])
    | .notFound => (none, t, [])
    | .acquireFail => (none, t, [])
    | .evict i =>
      let rest := stable_tree_search fuel false q (evictId i t)
      (rest.1, rest.2.1, i :: rest.2.2)

/-- One descent pass of `stable_tree_insert`: same node checks in the same
order; hash equality returns `PKSM_FAULT_TRY` (a concurrent insert won),
an empty slot links the new node. -/
inductive IPassResult where
  | evict : Nat → IPassResult
  | equalHash : IPassResult
  | acquireFail : IPassResult
  | terminal : IPassResult
deriving DecidableEq, Repr

def insertPass (q : Nat) : STree → IPassResult
  | .leaf => .terminal
  | .node l v r =>
    if v.dellist || !v.hasPage then .evict v.id
    else if !v.acquireOk then .acquireFail
    else if q < v.checksum then insertPass q l
    else if v.checksum < q then insertPass q r
    else .equalHash

/-- BST insertion at the terminal slot reached by the descent
(`rb_link_node` + `rb_insert_color`). -/
def STree.insert (v : TNode) : STree → STree
  | .leaf => .node .leaf v .leaf
  | .node l x r =>
    if v.checksum < x.checksum then .node (l.insert v) x r
    else .node l x (r.insert v)

inductive InsertOut where
  | linked : InsertOut
  | dropFail : InsertOut
  | retryEq : InsertOut
  | fuelOut : InsertOut
deriving DecidableEq, Repr

/-- `stable_tree_insert(rmap_item, kpage)`: descend; on `DELLIST`/null page
evict and restart; on `get_ksm_page` failure return `PKSM_FAULT_DROP`
without eviction; on hash equality return `PKSM_FAULT_TRY`; at a terminal
slot link the node (and the caller marks it `STABLE`). -/
def stable_tree_insert : Nat → TNode → STree → InsertOut × STree × List Nat
  | 0, _, t => (.fuelOut, t, [])
  | fuel + 1, v, t =>
    match insertPass v.checksum t with
    | .terminal => (.linked, t.insert v, [])
    | .equalHash => (.retryEq, t, [])
    | .acquireFail => (.dropFail, t, [])
    | .evict i =>
      let rest := stable_tree_insert fuel v (evictId i t)
      (rest.1, rest.2.1, i :: rest.2.2)

theorem stablePass_evict_mem (q : Nat) (t : STree) (i : Nat)
    (h : stablePass q t = .evict i) :
    ∃ v ∈ t.nodes, v.id = i ∧ (v.dellist = true ∨ v.hasPage = false) := by
  induction t with
  | leaf => simp [stablePass] at h
  | node l v r ihl ihr =>
    by_cases hflag : v.dellist || !v.hasPage
    · refine ⟨v, by simp [STree.nodes], ?_, ?_⟩
      · simp only [stablePass, hflag, if_true] at h
        cases h
        rfl
      · rcases Bool.or_eq_true_iff.mp hflag with h1 | h1
        · exact Or.inl h1
        · exact Or.inr (by simpa using h1)
    · simp only [stablePass, hflag, if_false] at h
      by_cases hacq : !v.acquireOk
      · simp [hacq] at h
      · simp only [hacq, if_false] at h
        by_cases hlt : q < v.checksum
        · rcases ihl (by simpa [hlt] using h) with ⟨w, hw, hwi, hwp⟩
          exact ⟨w, by simp [STree.nodes, hw], hwi, hwp⟩
        · by_cases hgt : v.checksum < q
          · rcases ihr (by simpa [hlt, hgt] using h) with ⟨w, hw, hwi, hwp⟩
            exact ⟨w, by simp [STree.nodes, hw], hwi, hwp⟩
          · simp [hlt, hgt] at h

theorem insertPass_evict_mem (q : Nat) (t : STree) (i : Nat)
    (h : insertPass q t = .evict i) :
    ∃ v ∈ t.nodes, v.id = i ∧ (v.dellist = true ∨ v.hasPage = false) := by
  induction t with
  | leaf => simp [insertPass] at h
  | node l v r ihl ihr =>
    by_cases hflag : v.dellist || !v.hasPage
    · refine ⟨v, by simp [STree.nodes], ?_, ?_⟩
      · simp only [insertPass, hflag, if_true] at h
        cases h
        rfl
      · rcases Bool.or_eq_true_iff.mp hflag with h1 | h1
        · exact Or.inl h1
        · exact Or.inr (by simpa using h1)
    · simp only [insertPass, hflag, if_false] at h
      by_cases hacq : !v.acquireOk
      · simp [hacq] at h
      · simp only [hacq, if_false] at h
        by_cases hlt : q < v.checksum
        · rcases ihl (by simpa [hlt] using h) with ⟨w, hw, hwi, hwp⟩
          exact ⟨w, by simp [STree.nodes, hw], hwi, hwp⟩
        · by_cases hgt : v.checksum < q
          · rcases ihr (by simpa [hlt, hgt] using h) with ⟨w, hw, hwi, hwp⟩
            exact ⟨w, by simp [STree.nodes, hw], hwi, hwp⟩
          · simp [hlt, hgt] at h

theorem graft_nodes_subset (a b : STree) (v : TNode)
    (h : v ∈ (a.graft b).nodes) : v ∈ a.nodes ∨ v ∈ b.nodes := by
  induction a with
  | leaf => exact Or.inr h
  | node l x r ihr0 ihr =>
    simp only [STree.graft, STree.nodes, List.mem_cons, List.mem_append] at h
    rcases h with h | h | h
    · exact Or.inl (by simp [STree.nodes, h])
    · exact Or.inl (by simp [STree.nodes, h])
    · rcases ihr h with h1 | h1
      · exact Or.inl (by simp [STree.nodes, h1])
      · exact Or.inr h1

theorem evictId_nodes_subset (i : Nat) (t : STree) (v : TNode)
    (h : v ∈ (evictId i t).nodes) : v ∈ t.nodes := by
  induction t with
  | leaf => simpa [evictId] using h
  | node l x r ihl ihr =>
    by_cases hx : x.id = i
    · simp only [evictId, hx, if_true] at h
      rcases graft_nodes_subset l r v h with h1 | h1
      · simp [STree.nodes, h1]
      · simp [STree.nodes, h1]
    · simp only [evictId, hx, if_false, STree.nodes, List.mem_cons,
        List.mem_append] at h
      rcases h with h | h | h
      · simp [STree.nodes, h]
      · simp [STree.nodes, ihl h]
      · simp [STree.nodes, ihr h]

theorem stable_search_evicts_sound :
    ∀ (fuel q : Nat) (t : STree) (i : Nat),
      i ∈ (stable_tree_search fuel false q t).2.2 →
      ∃ v ∈ t.nodes, v.id = i ∧ (v.dellist = true ∨ v.hasPage = false) := by
  intro fuel
  induction fuel with
  | zero =>
    intro q t i h
    simp [stable_tree_search] at h
  | succ n ih =>
    intro q t i h
    simp only [stable_tree_search] at h
    cases hp : stablePass q t with
    | found v =>
      rw [hp] at h
      simp at h
    | notFound =>
      rw [hp] at h
      simp at h
    | acquireFail =>
      rw [hp] at h
      simp at h
    | evict j =>
      rw [hp] at h
      simp only [List.mem_cons] at h
      rcases h with h | h
      · subst h
        exact stablePass_evict_mem q t i hp
      · rcases ih q (evictId j t) i h with ⟨v, hv, hvi, hvp⟩
        exact ⟨v, evictId_nodes_subset j t v hv, hvi, hvp⟩

theorem stable_insert_evicts_sound :
    ∀ (fuel : Nat) (v : TNode) (t : STree) (i : Nat),
      i ∈ (stable_tree_insert fuel v t).2.2 →
      ∃ w ∈ t.nodes, w.id = i ∧ (w.dellist = true ∨ w.hasPage = false) := by
  intro fuel
  induction fuel with
  | zero =>
    intro v t i h
    simp [stable_tree_insert] at h
  | succ n ih =>
    intro v t i h
    simp only [stable_tree_insert] at h
    cases hp : insertPass v.checksum t with
    | terminal =>
      rw [hp] at h
      simp at h
    | equalHash =>
      rw [hp] at h
      simp at h
    | acquireFail =>
      rw [hp] at h
      simp at h
    | evict j =>
      rw [hp] at h
      simp only [List.mem_cons] at h
      rcases h with h | h
      · subst h
        exact insertPass_evict_mem v.checksum t i hp
      · rcases ih v (evictId j t) i h with ⟨w, hw, hwi, hwp⟩
        exact ⟨w, evictId_nodes_subset j t w hw, hwi, hwp⟩

/-- The single-node stable tree whose page reference acquisition fails:
no `DELLIST` flag, page pointer present, but `get_ksm_page` returns NULL. -/
def c1FailNode : TNode :=
  { id := 7, checksum := 5, dellist := false, hasPage := true, acquireOk := false }

def c1FailTree : STree := .node .leaf c1FailNode .leaf

/-- A single-node stable tree whose node carries the `DELLIST` flag. -/
def c1DelNode : TNode :=
  { id := 3, checksum := 5, dellist := true, hasPage := true, acquireOk := true }

def c1DelTree : STree := .node .leaf c1DelNode .leaf

/-- C1 (counterexample): on a stable tree whose only node is not flagged
DELETED but whose page strong-reference acquisition (`get_ksm_page`) fails,
`stable_tree_search` terminates returning no result, evicts nothing, and
leaves the failing node in the tree — contradicting the claim that a
descent never terminates because of such a failure without first evicting
the failing node. -/
theorem c1_descent_counterexample :
    stable_tree_search 2 false 5 c1FailTree = (none, c1FailTree, [])
      ∧ c1FailNode ∈ c1FailTree.nodes := by
  exact ⟨by decide, by decide⟩

/-- C1 (amended): in the stable-tree descents, a node is evicted and the
descent restarted only when the node is flagged DELETED (`DELLIST_FLAG`) or
its page pointer is null; every id on the eviction list belongs to such a
node.  When instead the tryable strong-reference acquisition
(`get_ksm_page`) on a visited node fails, the descent terminates at once —
the search returns no result and the insert returns `PKSM_FAULT_DROP` —
with the tree unchanged and without evicting the failing node. -/
theorem c1_descent_amended :
    (∀ fuel q t i, i ∈ (stable_tree_search fuel false q t).2.2 →
        ∃ v ∈ STree.nodes t, v.id = i ∧ (v.dellist = true ∨ v.hasPage = false))
    ∧ (∀ fuel q t, stablePass q t = .acquireFail →
        stable_tree_search (fuel + 1) false q t = (none, t, []))
    ∧ (∀ fuel v t i, i ∈ (stable_tree_insert fuel v t).2.2 →
        ∃ w ∈ STree.nodes t, w.id = i ∧ (w.dellist = true ∨ w.hasPage = false))
    ∧ (∀ fuel v t, insertPass v.checksum t = .acquireFail →
        stable_tree_insert (fuel + 1) v t = (.dropFail, t, [])) := by
  refine ⟨stable_search_evicts_sound, ?_, stable_insert_evicts_sound, ?_⟩
  · intro fuel q t h
    simp [stable_tree_search, h]
  · intro fuel v t h
    simp [stable_tree_insert, h]

/-- Witness for `c1_descent_amended` at concrete inputs: the DELETED node
of `c1DelTree` is evicted by a search, and the acquire-failure tree
`c1FailTree` makes the descent stop with the tree unchanged. -/
theorem c1_descent_amended_witness :
    (3 ∈ (stable_tree_search 2 false 5 c1DelTree).2.2
      ∧ ∃ v ∈ STree.nodes c1DelTree, v.id = 3 ∧ (v.dellist = true ∨ v.hasPage = false))
    ∧ (stablePass 5 c1FailTree = .acquireFail
      ∧ stable_tree_search 3 false 5 c1FailTree = (none, c1FailTree, [])) :=
  ⟨⟨by decide, c1_descent_amended.1 2 5 c1DelTree 3 (by decide)⟩,
   ⟨by decide, c1_descent_amended.2.1 2 5 c1FailTree (by decide)⟩⟩

/-! ## Rmap flag bits (pksm.c lines 245-252)

The C code packs eight flag bits into the low bits of
`rmap_item->address`; each bit is modelled as one boolean field. -/

structure Flags where
  newlist : Bool
  dellist : Bool
  inksm : Bool
  unstable : Bool
  stable : Bool
  checksumList : Bool
  initChecksum : Bool
  rescan : Bool
deriving DecidableEq, Repr

/-- All flag bits clear (`address = 0` for a freshly zeroed rmap_item). -/
def Flags.clear : Flags :=
  { newlist := false, dellist := false, inksm := false, unstable := false,
    stable := false, checksumList := false, initChecksum := false,
    rescan := false }

/-! ## Anchor list and sharing counters (pksm.c `stable_tree_append`
lines 1550-1576, `alloc_stable_anon` lines 389-398,
`pksm_add_sharing_page_counter` lines 527-541,
`pksm_del_sharing_page_counter` lines 515-525)

`stable_tree_append(rmap_head, page)` first runs
`check_valid_rmap_item` on `rmap_head` and on `page->pksm` and silently
returns on failure; then it calls `alloc_stable_anon()` — whose result is
`NULL` when the slab allocation fails — and immediately dereferences the
result (`anon_node->anon_vma = ...`) with no null check.  On the normal
path it records the anonymous-memory identity, takes a strong reference to
it, links the anchor at the head of `rmap_head->hlist`, and increments
`ksm_pages_shared` iff the list was empty before
(`if (!anon_node->hlist.next)`).  It never touches
`rmap_head->_mapcount`; that counter is changed only by
`pksm_add_sharing_page_counter` / `pksm_del_sharing_page_counter`. -/

structure AppendState where
  headValid : Bool
  pageRmapValid : Bool
  anchors : List Nat
  mapcount : Int
  pages_shared : Nat
  pageKsm : Bool
  rmapAnonVma : Nat
  pageRmapping : Nat
deriving DecidableEq, Repr

inductive AppendOut where
  | noop : AppendState → AppendOut
  | nullDeref : AppendOut
  | ok : AppendState → AppendOut
deriving DecidableEq, Repr

/-- `stable_tree_append`; `alloc` is the result of `alloc_stable_anon()`
(`none` models a failed slab allocation). -/
def stable_tree_append (alloc : Option Unit) (s : AppendState) : AppendOut :=
  if !s.headValid then .noop s
  else if !s.pageRmapValid then .noop s
  else
    match alloc with
    | none => .nullDeref
    | some _ =>
      let anonVma := if s.pageKsm then s.rmapAnonVma else s.pageRmapping
      .ok { s with anchors := anonVma :: s.anchors,
                   pages_shared :=
                     if s.anchors.isEmpty then s.pages_shared + 1
                     else s.pages_shared }

/-- `pksm_add_sharing_page_counter(page, n)`: a no-op unless the page is a
KSM page; otherwise `n` iterations of `ksm_pages_sharing++` and
`atomic_inc(&rmap_item->_mapcount)`.  Returns the updated
(`mapcount`, `pages_sharing`) pair. -/
def pksm_add_sharing_page_counter (pageKsm : Bool) (n : Nat)
    (mapcount pages_sharing : Int) : Int × Int :=
  if !pageKsm then (mapcount, pages_sharing)
  else (mapcount + n, pages_sharing + n)

/-- `pksm_del_sharing_page_counter(page, n)`: `n` iterations of
`ksm_pages_sharing--` and `atomic_dec(&rmap_item->_mapcount)`. -/
def pksm_del_sharing_page_counter (n : Nat)
    (mapcount pages_sharing : Int) : Int × Int :=
  (mapcount - n, pages_sharing - n)

/-- A merged page in the state the claim itself considers balanced:
no anchors yet and a zero sharer counter. -/
def c3State : AppendState :=
  { headValid := true, pageRmapValid := true, anchors := [], mapcount := 0,
    pages_shared := 0, pageKsm := true, rmapAnonVma := 11, pageRmapping := 12 }

/-- C3 (counterexample): starting from a stable rmap whose sharer counter
equals its anchor-list length (both zero), one `stable_tree_append`
produces an anchor list of length one while the sharer counter
(`_mapcount`) is still zero — the function never touches the counter, so
the claimed equality is not preserved. -/
theorem c3_counter_anchor_counterexample :
    stable_tree_append (some ()) c3State
      = .ok { c3State with anchors := [11], pages_shared := 1 }
    ∧ ((1 : Int) ≠ (0 : Int)
    ∧ (stable_tree_append (some ()) c3State
        ≠ .ok { c3State with anchors := [11], pages_shared := 1, mapcount := 1 })) := by
  exact ⟨by decide, by decide, by decide⟩

/-- C3 (amended): `stable_tree_append` grows the anchor list by exactly one
and leaves the sharer counter (`_mapcount`) unchanged; the counter is
instead maintained by `pksm_add_sharing_page_counter` /
`pksm_del_sharing_page_counter` (one increment per successfully replaced
mapping), which in turn leave the anchor list alone.  The sharer counter
therefore does not in general equal the anchor-list length. -/
theorem c3_append_amended (alloc : Unit) (s : AppendState)
    (hHead : s.headValid = true) (hRmap : s.pageRmapValid = true) :
    ∃ s', stable_tree_append (some alloc) s = .ok s'
      ∧ s'.anchors.length = s.anchors.length + 1
      ∧ s'.mapcount = s.mapcount
      ∧ (∀ (pageKsm : Bool) (n : Nat) (mc sh : Int),
          (pksm_add_sharing_page_counter pageKsm n mc sh).1
            = if pageKsm then mc + n else mc) := by
  refine ⟨{ s with
      anchors := (if s.pageKsm then s.rmapAnonVma else s.pageRmapping) :: s.anchors,
      pages_shared := if s.anchors.isEmpty then s.pages_shared + 1 else s.pages_shared },
    ?_, ?_, ?_, ?_⟩
  · simp [stable_tree_append, hHead, hRmap]
  · simp
  · simp
  · intro pageKsm n mc sh
    cases pageKsm <;> simp [pksm_add_sharing_page_counter]

/-- Witness for `c3_append_amended` at the concrete state `c3State`. -/
theorem c3_append_amended_witness :
    (c3State.headValid = true ∧ c3State.pageRmapValid = true)
    ∧ (∃ s', stable_tree_append (some ()) c3State = .ok s'
        ∧ s'.anchors.length = c3State.anchors.length + 1
        ∧ s'.mapcount = c3State.mapcount
        ∧ (∀ (pageKsm : Bool) (n : Nat) (mc sh : Int),
            (pksm_add_sharing_page_counter pageKsm n mc sh).1
              = if pageKsm then mc + n else mc)) :=
  ⟨⟨by decide, by decide⟩, c3_append_amended () c3State (by decide) (by decide)⟩

/-- C10: when both rmap validity checks pass and the anchor slab
allocation fails (`alloc_stable_anon()` returns NULL), `stable_tree_append`
reaches the null-pointer dereference (`anon_node->anon_vma = ...` on a NULL
`anon_node`) — the branch the claim asserts to be unreachable. -/
theorem c10_null_deref_reachable :
    stable_tree_append none c3State = .nullDeref := by
  decide

/-! ## Unstable checksum revalidation (pksm.c
`pksm_calc_update_pages_num` lines 1752-1763 and
`pksm_update_unstable_page_checksum` lines 1764-1822)

A checksum-list entry is modelled with the observations the loop body
makes about it: `valid` is `check_valid_rmap_item`, `getPageOk` is
`get_page_unless_zero`, `locked` is `PageLocked`, `dio` is
`check_page_dio`, `stored` is `rmap_item->checksum` and `curr` is the
freshly computed `calc_checksum(page)`.  The loop breaks via
`if (scan++ > need_scan) break;` placed after the body, and every visited
entry — re-hashed or skipped — bumps `scan`. -/

structure CsEntry where
  id : Nat
  flags : Flags
  valid : Bool
  getPageOk : Bool
  locked : Bool
  dio : Bool
  stored : Nat
  curr : Nat
deriving DecidableEq, Repr

def csAccessible (e : CsEntry) : Bool :=
  e.valid && e.getPageOk && !e.locked && !e.dio

def csChanged (e : CsEntry) : Bool := e.stored != e.curr

/-- The `re_cmp` path: store the new checksum, run
`remove_rmap_item_from_tree` (clearing UNSTABLE and CHECKSUM_LIST), then
clear `INITCHECKSUM_FLAG`, set `RESCAN_LIST_FLAG` and append to the rescan
list. -/
def requeueEntry (e : CsEntry) : CsEntry :=
  { e with stored := e.curr,
           flags := { e.flags with unstable := false, checksumList := false,
                                   initChecksum := false, rescan := true } }

/-- The walk over `unstabletree_checksum_list`: returns the number of
entries re-hashed (`calc_checksum` calls) and the list of entries requeued
to rescan. -/
def pksm_update_loop (need : Nat) : Nat → List CsEntry → Nat × List CsEntry
  | _, [] => (0, [])
  | scan, e :: rest =>
    let hit := csAccessible e
    let chg := hit && csChanged e
    let tail :=
      if need < scan then ((0 : Nat), ([] : List CsEntry))
      else pksm_update_loop need (scan + 1) rest
    ((if hit then 1 else 0) + tail.1,
     (if chg then [requeueEntry e] else []) ++ tail.2)

structure Cfg where
  pages_unshared : Nat
  pages_to_scan : Nat
  sleep_millisecs : Nat
  update_period : Nat
deriving DecidableEq, Repr

/-- `pksm_calc_update_pages_num()`. -/
def pksm_calc_update_pages_num (c : Cfg) : Nat :=
  if c.pages_unshared < c.pages_to_scan then c.pages_unshared
  else c.pages_unshared * c.sleep_millisecs / (c.update_period * 1000)

/-- `pksm_update_unstable_page_checksum()`: compute `need_scan`, return at
once when it is zero, clamp it to `ksm_thread_pages_to_scan`, then walk the
checksum list. -/
def pksm_update_unstable_page_checksum (c : Cfg) (l : List CsEntry) :
    Nat × List CsEntry :=
  let need := pksm_calc_update_pages_num c
  if need = 0 then (0, [])
  else pksm_update_loop (min need c.pages_to_scan) 0 l

/-- The phase-3 sample size as the claim words it. -/
def claimedUpdateCount (c : Cfg) : Nat :=
  min (c.pages_unshared * c.sleep_millisecs / (c.update_period * 1000))
    c.pages_to_scan

def c4Cfg : Cfg :=
  { pages_unshared := 1, pages_to_scan := 1000, sleep_millisecs := 20,
    update_period := 10 }

def c4Flags : Flags :=
  { Flags.clear with
    inksm := true,
    unstable := true,
    checksumList := true }

def c4Entry : CsEntry :=
  { id := 1, flags := c4Flags, valid := true, getPageOk := true,
    locked := false, dio := false, stored := 5, curr := 5 }

def c4Changed : CsEntry :=
  { c4Entry with
    id := 2,
    flags := { c4Flags with initChecksum := true },
    curr := 9 }

/-- C4 (counterexample): with one unstable entry, budget 1000, sleep 20 ms
and period 10 s, the claimed sample size
`min(pages_unshared * sleep_ms / (period_s * 1000), scan_budget)` is 0, yet
the code re-hashes 1 entry (the branch `pages_unshared < pages_to_scan`
uses `pages_unshared` itself, not the rate formula).  Moreover an entry
whose hash changed is requeued with `INITCHECKSUM_FLAG` cleared (and
`RESCAN_LIST_FLAG` set), not with INIT_CHECKSUM as claimed. -/
theorem c4_revalidation_counterexample :
    (pksm_update_unstable_page_checksum c4Cfg [c4Entry]).1 = 1
    ∧ claimedUpdateCount c4Cfg = 0
    ∧ (pksm_update_unstable_page_checksum c4Cfg [c4Changed]).2
        = [requeueEntry c4Changed]
    ∧ c4Changed.flags.initChecksum = true
    ∧ (requeueEntry c4Changed).flags.initChecksum = false
    ∧ (requeueEntry c4Changed).flags.rescan = true := by
  refine ⟨by decide, by decide, by decide, by decide, by decide, by decide⟩

theorem pksm_update_loop_spec :
    ∀ (l : List CsEntry) (need scan : Nat),
      (∀ e ∈ l, csAccessible e = true) → scan ≤ need + 1 →
      pksm_update_loop need scan l
        = (min l.length (need + 2 - scan),
           ((l.take (need + 2 - scan)).filter csChanged).map requeueEntry) := by
  intro l
  induction l with
  | nil =>
    intro need scan hacc hle
    simp [pksm_update_loop]
  | cons e rest ih =>
    intro need scan hacc hle
    have hae : csAccessible e = true := hacc e (List.mem_cons_self e rest)
    have hk : need + 2 - scan = (need + 1 - scan) + 1 := by omega
    by_cases hscan : need < scan
    · have h1 : need + 1 - scan = 0 := by omega
      simp only [pksm_update_loop, hae, hscan, if_true, hk, h1, List.take_succ_cons,
        List.take_zero, List.length_cons, Bool.true_and]
      rw [Prod.mk.injEq]
      refine ⟨by omega, ?_⟩
      cases hch : csChanged e <;> simp [hch, List.filter]
    · have hrec := ih need (scan + 1)
        (fun x hx => hacc x (List.mem_cons_of_mem e hx)) (by omega)
      have hk2 : need + 2 - (scan + 1) = need + 1 - scan := by omega
      simp only [pksm_update_loop, hae, hscan, if_false, hrec, hk, hk2,
        List.take_succ_cons, List.length_cons, Bool.true_and]
      rw [Prod.mk.injEq]
      refine ⟨?_, ?_⟩
      · simp only [if_true]
        omega
      · cases hch : csChanged e <;> simp [hch, List.filter]

/-- C4 (amended): phase 3 visits (and, when accessible, re-hashes)
`min(len(checksum list), K + 2)` entries, where
`K = min(need, scan_budget)` and `need` is `pages_unshared` itself when
`pages_unshared < scan_budget` and
`pages_unshared * sleep_ms / (revalidate_period_s * 1000)` otherwise; no
entry is visited when `need = 0`.  A re-hashed entry whose new hash
differs from the stored one gets the new hash stored, is removed from the
unstable tree and the checksum list, and is requeued to rescan with
`RESCAN_LIST_FLAG` set and `INITCHECKSUM_FLAG` cleared. -/
theorem c4_revalidation_amended (c : Cfg) (l : List CsEntry)
    (hacc : ∀ e ∈ l, csAccessible e = true) :
    pksm_update_unstable_page_checksum c l
      = (if pksm_calc_update_pages_num c = 0 then ((0 : Nat), ([] : List CsEntry))
         else
          (min l.length (min (pksm_calc_update_pages_num c) c.pages_to_scan + 2),
           ((l.take (min (pksm_calc_update_pages_num c) c.pages_to_scan + 2)).filter
               csChanged).map requeueEntry))
    ∧ ∀ e ∈ (pksm_update_unstable_page_checksum c l).2,
        e.flags.initChecksum = false ∧ e.flags.rescan = true
          ∧ e.flags.checksumList = false ∧ e.flags.unstable = false := by
  have hmain : pksm_update_unstable_page_checksum c l
      = (if pksm_calc_update_pages_num c = 0 then ((0 : Nat), ([] : List CsEntry))
         else
          (min l.length (min (pksm_calc_update_pages_num c) c.pages_to_scan + 2),
           ((l.take (min (pksm_calc_update_pages_num c) c.pages_to_scan + 2)).filter
               csChanged).map requeueEntry)) := by
    unfold pksm_update_unstable_page_checksum
    by_cases h0 : pksm_calc_update_pages_num c = 0
    · simp [h0]
    · have := pksm_update_loop_spec l (min (pksm_calc_update_pages_num c) c.pages_to_scan)
        0 hacc (by omega)
      simp [h0, this]
  refine ⟨hmain, ?_⟩
  intro e he
  rw [hmain] at he
  by_cases h0 : pksm_calc_update_pages_num c = 0
  · simp [h0] at he
  · simp only [h0, if_false, List.mem_map, List.mem_filter] at he
    rcases he with ⟨e0, _, rfl⟩
    simp [requeueEntry]

/-- Witness for `c4_revalidation_amended` at a concrete configuration. -/
theorem c4_revalidation_amended_witness :
    ((∀ e ∈ [c4Entry, c4Changed], csAccessible e = true)
    ∧ (pksm_update_unstable_page_checksum c4Cfg [c4Entry, c4Changed]
      = (if pksm_calc_update_pages_num c4Cfg = 0 then ((0 : Nat), ([] : List CsEntry))
         else
          (min ([c4Entry, c4Changed] : List CsEntry).length
            (min (pksm_calc_update_pages_num c4Cfg) c4Cfg.pages_to_scan + 2),
           ((([c4Entry, c4Changed] : List CsEntry).take
              (min (pksm_calc_update_pages_num c4Cfg) c4Cfg.pages_to_scan + 2)).filter
               csChanged).map requeueEntry))
    ∧ ∀ e ∈ (pksm_update_unstable_page_checksum c4Cfg [c4Entry, c4Changed]).2,
        e.flags.initChecksum = false ∧ e.flags.rescan = true
          ∧ e.flags.checksumList = false ∧ e.flags.unstable = false)) :=
  ⟨by decide, c4_revalidation_amended c4Cfg [c4Entry, c4Changed] (by decide)⟩

/-! ## Scanner phase 1 — intake promotion (pksm.c `ksm_do_scan`
lines 1851-1877)

The first loop moves entries of `new_anon_page_list` to the local working
list, clearing `NEWLIST_FLAG` and setting `INKSM_FLAG`, and breaks via
`if (scan++ > scan_npages) break;` after moving each entry.  The second
loop does `list_del_init` on each `pksm_rescan_page_list` entry, clears
`RESCAN_LIST_FLAG`, skips (with `continue`, without bumping `scan`)
entries flagged `DELLIST_FLAG`, appends the rest to the working list and
breaks the same way. -/

structure SRmap where
  id : Nat
  flags : Flags
deriving DecidableEq, Repr

def promoteNew (r : SRmap) : SRmap :=
  { r with flags := { r.flags with newlist := false, inksm := true } }

def promoteRescan (r : SRmap) : SRmap :=
  { r with flags := { r.flags with rescan := false } }

/-- The `new_anon_page_list` drain: returns (working-list entries taken,
entries left on the queue). -/
def drain_new (budget : Nat) : Nat → List SRmap → List SRmap × List SRmap
  | _, [] => ([], [])
  | scan, r :: rest =>
    let r1 := promoteNew r
    if budget < scan then ([r1], rest)
    else
      let t := drain_new budget (scan + 1) rest
      (r1 :: t.1, t.2)

/-- The `pksm_rescan_page_list` drain. -/
def drain_rescan (budget : Nat) : Nat → List SRmap → List SRmap × List SRmap
  | _, [] => ([], [])
  | scan, r :: rest =>
    let r1 := promoteRescan r
    if r1.flags.dellist then drain_rescan budget scan rest
    else if budget < scan then ([r1], rest)
    else
      let t := drain_rescan budget (scan + 1) rest
      (r1 :: t.1, t.2)

def c5NewA : SRmap := ⟨21, { Flags.clear with newlist := true, initChecksum := true }⟩

def c5NewB : SRmap := ⟨22, { Flags.clear with newlist := true, initChecksum := true }⟩

def c5ReA : SRmap := ⟨23, { Flags.clear with inksm := true, rescan := true }⟩

def c5ReB : SRmap := ⟨24, { Flags.clear with inksm := true, rescan := true }⟩

/-- C5 (counterexample): with `scan_budget = 0` and two queued rmaps, phase
1 promotes two entries from the `new` queue and two from the `rescan`
queue — more than `scan_budget` — because the break test
`if (scan++ > scan_npages)` runs only after an entry has already been
moved and lets the counter reach `scan_npages + 1`. -/
theorem c5_budget_counterexample :
    (drain_new 0 0 [c5NewA, c5NewB]).1.length = 2
    ∧ (drain_rescan 0 0 [c5ReA, c5ReB]).1.length = 2 := by
  exact ⟨by decide, by decide⟩

theorem drain_new_length :
    ∀ (l : List SRmap) (budget scan : Nat), scan ≤ budget + 1 →
      (drain_new budget scan l).1.length = min l.length (budget + 2 - scan) := by
  intro l
  induction l with
  | nil =>
    intro budget scan hle
    simp [drain_new]
  | cons r rest ih =>
    intro budget scan hle
    by_cases hscan : budget < scan
    · simp only [drain_new, hscan, if_true, List.length_singleton, List.length_cons,
        List.length_nil]
      omega
    · simp only [drain_new, hscan, if_false, List.length_cons,
        ih budget (scan + 1) (by omega)]
      omega

theorem drain_rescan_length_le :
    ∀ (l : List SRmap) (budget scan : Nat), scan ≤ budget + 1 →
      (drain_rescan budget scan l).1.length ≤ budget + 2 - scan := by
  intro l
  induction l with
  | nil =>
    intro budget scan hle
    simp [drain_rescan]
  | cons r rest ih =>
    intro budget scan hle
    by_cases hdel : (promoteRescan r).flags.dellist
    · simpa only [drain_rescan, hdel, if_true] using ih budget scan hle
    · by_cases hscan : budget < scan
      · simp only [drain_rescan, hdel, hscan, if_true, if_false,
          Bool.false_eq_true, List.length_singleton]
        omega
      · have := ih budget (scan + 1) (by omega)
        simp only [drain_rescan, hdel, hscan, if_false, Bool.false_eq_true,
          List.length_cons]
        omega

theorem drain_rescan_no_dellist :
    ∀ (l : List SRmap) (budget scan : Nat) (r : SRmap),
      r ∈ (drain_rescan budget scan l).1 → r.flags.dellist = false := by
  intro l
  induction l with
  | nil =>
    intro budget scan r h
    simp [drain_rescan] at h
  | cons x rest ih =>
    intro budget scan r h
    by_cases hdel : (promoteRescan x).flags.dellist
    · rw [drain_rescan] at h
      simp only [hdel, if_true] at h
      exact ih budget scan r h
    · by_cases hscan : budget < scan
      · rw [drain_rescan] at h
        simp only [hdel, hscan, if_true, if_false, Bool.false_eq_true,
          List.mem_singleton] at h
        subst h
        simpa using hdel
      · rw [drain_rescan] at h
        simp only [hdel, hscan, if_false, Bool.false_eq_true, List.mem_cons] at h
        rcases h with h | h
        · subst h
          simpa using hdel
        · exact ih budget (scan + 1) r h

/-- C5 (amended): phase 1 drains `min(|new|, scan_budget + 2)` rmaps from
the `new` queue and at most `scan_budget + 2` rmaps from the `rescan`
queue (skipping, and dropping from the queue, entries also flagged DEL);
the bound is `scan_budget + 2` rather than `scan_budget` because the break
test `if (scan++ > scan_npages)` runs after each move. -/
theorem c5_budget_amended :
    (∀ (budget : Nat) (l : List SRmap),
      (drain_new budget 0 l).1.length = min l.length (budget + 2))
    ∧ (∀ (budget : Nat) (l : List SRmap),
      (drain_rescan budget 0 l).1.length ≤ budget + 2)
    ∧ (∀ (budget : Nat) (l : List SRmap) (r : SRmap),
      r ∈ (drain_rescan budget 0 l).1 → r.flags.dellist = false) := by
  refine ⟨?_, ?_, ?_⟩
  · intro budget l
    simpa using drain_new_length l budget 0 (by omega)
  · intro budget l
    simpa using drain_rescan_length_le l budget 0 (by omega)
  · intro budget l r h
    exact drain_rescan_no_dellist l budget 0 r h

/-- Witness for `c5_budget_amended` at concrete inputs. -/
theorem c5_budget_amended_witness :
    (promoteRescan c5ReA ∈ (drain_rescan 0 0 [c5ReA]).1)
    ∧ (promoteRescan c5ReA).flags.dellist = false :=
  ⟨by decide, c5_budget_amended.2.2 0 [c5ReA] (promoteRescan c5ReA) (by decide)⟩

/-! ## Intake callbacks (pksm.c `pksm_add_new_anon_page` lines 2105-2138
and `pksm_del_anon_page` lines 2140-2180)

`EFAULT` models the C `-EFAULT` return. -/

def EFAULT : Int := -14

structure ARmap where
  id : Nat
  flags : Flags
  page : Option Nat
  anonVma : Option Nat
deriving DecidableEq, Repr

structure APage where
  pageId : Nat
  pksmFlag : Bool
  anon : Bool
  ksm : Bool
  pksm : Option Nat
deriving DecidableEq, Repr

structure AddResult where
  err : Int
  page : Option APage
  rmap : Option ARmap
  newList : List Nat
deriving DecidableEq, Repr

/-- `pksm_add_new_anon_page(page, rmap_item, anon_vma)`: error on a null
rmap/page/anon_vma, on `PagePKSM` (already tracked), on `!PageAnon`, or on
`PageKsm`; otherwise record the anon_vma, set `PagePKSM`, or in
`NEWLIST_FLAG | INITCHECKSUM_FLAG`, link `page->pksm` and
`rmap_item->page`, and append the rmap to `new_anon_page_list`. -/
def pksm_add_new_anon_page (page : Option APage) (rmap : Option ARmap)
    (anonVma : Option Nat) (newList : List Nat) : AddResult :=
  match rmap with
  | none => ⟨EFAULT, page, rmap, newList⟩
  | some r =>
    match page, anonVma with
    | none, _ => ⟨EFAULT, page, rmap, newList⟩
    | _, none => ⟨EFAULT, page, rmap, newList⟩
    | some p, some av =>
      if p.pksmFlag then ⟨EFAULT, page, rmap, newList⟩
      else if !p.anon then ⟨EFAULT, page, rmap, newList⟩
      else if p.ksm then ⟨EFAULT, page, rmap, newList⟩
      else
        ⟨0,
         some { p with pksmFlag := true, pksm := some r.id },
         some { r with
                anonVma := some av,
                flags := { r.flags with newlist := true, initChecksum := true },
                page := some p.pageId },
         newList ++ [r.id]⟩

/-- C6: the new-anonymous-page intake errors exactly on an already-tracked,
non-anonymous or already-merged page; on success it sets the fresh rmap's
flags to `NEW | INIT_CHECKSUM`, links `page->pksm` to the rmap and the rmap
back to the page, appends the rmap to the `new` list and returns 0; and a
second intake of the same page errors and changes nothing, leaving exactly
one tracked entry. -/
theorem c6_intake_spec (p : APage) (r : ARmap) (av : Nat) (nl : List Nat)
    (hfresh : r.flags = Flags.clear) (hnotin : r.id ∉ nl) :
    (p.pksmFlag = true →
      pksm_add_new_anon_page (some p) (some r) (some av) nl
        = ⟨EFAULT, some p, some r, nl⟩)
    ∧ (p.anon = false →
      pksm_add_new_anon_page (some p) (some r) (some av) nl
        = ⟨EFAULT, some p, some r, nl⟩)
    ∧ (p.ksm = true →
      pksm_add_new_anon_page (some p) (some r) (some av) nl
        = ⟨EFAULT, some p, some r, nl⟩)
    ∧ (p.pksmFlag = false → p.anon = true → p.ksm = false →
      pksm_add_new_anon_page (some p) (some r) (some av) nl
        = ⟨0, some { p with pksmFlag := true, pksm := some r.id },
           some { r with
                  anonVma := some av,
                  flags := { Flags.clear with newlist := true, initChecksum := true },
                  page := some p.pageId },
           nl ++ [r.id]⟩)
    ∧ (p.pksmFlag = false → p.anon = true → p.ksm = false →
      (pksm_add_new_anon_page
          (pksm_add_new_anon_page (some p) (some r) (some av) nl).page
          (pksm_add_new_anon_page (some p) (some r) (some av) nl).rmap
          (some av)
          (pksm_add_new_anon_page (some p) (some r) (some av) nl).newList).err
        = EFAULT
      ∧ (pksm_add_new_anon_page
          (pksm_add_new_anon_page (some p) (some r) (some av) nl).page
          (pksm_add_new_anon_page (some p) (some r) (some av) nl).rmap
          (some av)
          (pksm_add_new_anon_page (some p) (some r) (some av) nl).newList).newList
        = nl ++ [r.id]
      ∧ (nl ++ [r.id]).count r.id = 1) := by
  refine ⟨?_, ?_, ?_, ?_, ?_⟩
  · intro h
    simp [pksm_add_new_anon_page, h]
  · intro h
    by_cases hp : p.pksmFlag <;> simp [pksm_add_new_anon_page, h, hp]
  · intro h
    by_cases hp : p.pksmFlag
    · simp [pksm_add_new_anon_page, h, hp]
    · by_cases ha : p.anon <;> simp [pksm_add_new_anon_page, h, hp, ha]
  · intro h1 h2 h3
    simp [pksm_add_new_anon_page, h1, h2, h3, hfresh]
  · intro h1 h2 h3
    refine ⟨?_, ?_, ?_⟩
    · simp [pksm_add_new_anon_page, h1, h2, h3]
    · simp [pksm_add_new_anon_page, h1, h2, h3]
    · simp [List.count_append, List.count_eq_zero_of_not_mem hnotin]

def c6Page : APage :=
  { pageId := 40, pksmFlag := false, anon := true, ksm := false, pksm := none }

def c6Rmap : ARmap :=
  { id := 41, flags := Flags.clear, page := none, anonVma := none }

/-- Witness for `c6_intake_spec` on a concrete fresh anonymous page. -/
theorem c6_intake_spec_witness :
    (c6Rmap.flags = Flags.clear ∧ c6Rmap.id ∉ ([] : List Nat))
    ∧ (c6Page.pksmFlag = false → c6Page.anon = true → c6Page.ksm = false →
      pksm_add_new_anon_page (some c6Page) (some c6Rmap) (some 42) []
        = ⟨0, some { c6Page with pksmFlag := true, pksm := some c6Rmap.id },
           some { c6Rmap with
                  anonVma := some 42,
                  flags := { Flags.clear with newlist := true, initChecksum := true },
                  page := some c6Page.pageId },
           [] ++ [c6Rmap.id]⟩) :=
  ⟨⟨by decide, by decide⟩,
   (c6_intake_spec c6Page c6Rmap 42 [] (by decide) (by decide)).2.2.2.1⟩

/-! ## Page-destroy intake (pksm.c `pksm_del_anon_page` lines 2140-2180)

`DRmap` is the rmap record reachable through `page->pksm`; `DPage.pksm`
holds it directly.  The output carries the updated page, the surviving
rmap record (`none` when `pksm_free_rmap_item` freed it), the updated
`ksm_pages_sharing` counter and the three intake queues. -/

structure DRmap where
  id : Nat
  flags : Flags
  page : Option Nat
  mapcount : Int
deriving DecidableEq, Repr

structure DPage where
  pageId : Nat
  pksmFlag : Bool
  pksm : Option DRmap
deriving DecidableEq, Repr

structure DelOut where
  err : Int
  page : DPage
  rmap : Option DRmap
  pages_sharing : Int
  newList : List Nat
  rescanList : List Nat
  delList : List Nat
  freedRmap : Bool
deriving DecidableEq, Repr

/-- `pksm_del_anon_page(page)`: error on an untracked page
(`!PagePKSM`), a null `page->pksm` or a mismatched back-pointer; otherwise
clear `PagePKSM`, decrement the sharing counters by the rmap's current map
count when positive, unlink `page->pksm` and `rmap_item->page`, then
either free the rmap at once (still on the `new`/`rescan` list only) or
mark it `DELLIST_FLAG` and append it to `del_anon_page_list`. -/
def pksm_del_anon_page (page : DPage) (pages_sharing : Int)
    (newList rescanList delList : List Nat) : DelOut :=
  if !page.pksmFlag then
    ⟨EFAULT, page, page.pksm, pages_sharing, newList, rescanList, delList, false⟩
  else
    let p1 := { page with pksmFlag := false }
    match page.pksm with
    | none => ⟨EFAULT, p1, none, pages_sharing, newList, rescanList, delList, false⟩
    | some r =>
      if r.page ≠ some page.pageId then
        ⟨EFAULT, p1, some r, pages_sharing, newList, rescanList, delList, false⟩
      else
        let map := r.mapcount
        let r1 := if 0 < map then { r with mapcount := r.mapcount - map } else r
        let sharing1 := if 0 < map then pages_sharing - map else pages_sharing
        let p2 := { p1 with pksm := none }
        let r2 := { r1 with page := none }
        if r2.flags.newlist || r2.flags.rescan then
          ⟨0, p2, none, sharing1, newList.erase r.id, rescanList.erase r.id,
           delList, true⟩
        else
          ⟨0, p2,
           some { r2 with flags := { r2.flags with dellist := true } },
           sharing1, newList, rescanList, delList ++ [r.id], false⟩

/-- C7: on a tracked page the destroy intake decrements the sharing
counter by the rmap's current (positive) map count, clears the engine flag
and unlinks `page->pksm`; a rmap still flagged NEW or RESCAN is freed at
once (and removed from those queues), any other rmap is marked DEL and
appended to the delete queue; an untracked page yields an error with
nothing changed. -/
theorem c7_destroy_spec (page : DPage) (sh : Int) (nl rl dl : List Nat) :
    (page.pksmFlag = false →
      pksm_del_anon_page page sh nl rl dl
        = ⟨EFAULT, page, page.pksm, sh, nl, rl, dl, false⟩)
    ∧ (∀ r : DRmap, page.pksmFlag = true → page.pksm = some r →
        r.page = some page.pageId →
        (pksm_del_anon_page page sh nl rl dl).err = 0
        ∧ (pksm_del_anon_page page sh nl rl dl).page.pksmFlag = false
        ∧ (pksm_del_anon_page page sh nl rl dl).page.pksm = none
        ∧ (pksm_del_anon_page page sh nl rl dl).pages_sharing
            = sh - (if 0 < r.mapcount then r.mapcount else 0)
        ∧ ((r.flags.newlist = true ∨ r.flags.rescan = true) →
            (pksm_del_anon_page page sh nl rl dl).freedRmap = true
            ∧ (pksm_del_anon_page page sh nl rl dl).rmap = none
            ∧ (pksm_del_anon_page page sh nl rl dl).newList = nl.erase r.id
            ∧ (pksm_del_anon_page page sh nl rl dl).rescanList = rl.erase r.id
            ∧ (pksm_del_anon_page page sh nl rl dl).delList = dl)
        ∧ (r.flags.newlist = false → r.flags.rescan = false →
            (pksm_del_anon_page page sh nl rl dl).freedRmap = false
            ∧ (pksm_del_anon_page page sh nl rl dl).delList = dl ++ [r.id]
            ∧ ∃ r' : DRmap, (pksm_del_anon_page page sh nl rl dl).rmap = some r'
                ∧ r'.flags.dellist = true ∧ r'.page = none)) := by
  constructor
  · intro h
    simp [pksm_del_anon_page, h]
  · intro r htrack hpksm hback
    have hout : pksm_del_anon_page page sh nl rl dl
        = (if r.flags.newlist || r.flags.rescan then
            ⟨0, { page with pksmFlag := false, pksm := none }, none,
             if 0 < r.mapcount then sh - r.mapcount else sh,
             nl.erase r.id, rl.erase r.id, dl, true⟩
          else
            ⟨0, { page with pksmFlag := false, pksm := none },
             some { r with
                    mapcount := if 0 < r.mapcount then r.mapcount - r.mapcount
                                else r.mapcount,
                    page := none,
                    flags := { r.flags with dellist := true } },
             if 0 < r.mapcount then sh - r.mapcount else sh,
             nl, rl, dl ++ [r.id], false⟩) := by
      rw [pksm_del_anon_page]
      rw [htrack, hpksm]
      simp only [Bool.not_true, Bool.false_eq_true, if_false, hback, ne_eq,
        not_true_eq_false]
      by_cases hmap : 0 < r.mapcount <;>
        by_cases hnr : r.flags.newlist || r.flags.rescan <;>
          simp [hmap, hnr]
    rw [hout]
    by_cases hnr : r.flags.newlist || r.flags.rescan
    · refine ⟨by simp [hnr], by simp [hnr], by simp [hnr], ?_, ?_, ?_⟩
      · simp only [hnr, if_true]
        split <;> simp
      · intro _
        simp [hnr]
      · intro h1 h2
        rw [h1, h2] at hnr
        simp at hnr
    · refine ⟨by simp [hnr], by simp [hnr], by simp [hnr], ?_, ?_, ?_⟩
      · simp only [hnr, if_false, Bool.false_eq_true]
        split <;> simp
      · intro hcon
        rcases hcon with h | h <;> simp [h] at hnr
      · intro h1 h2
        refine ⟨by simp [hnr], by simp [hnr], ?_⟩
        simp only [hnr, if_false, Bool.false_eq_true]
        exact ⟨_, rfl, rfl, rfl⟩

def c7Rmap : DRmap :=
  { id := 50, flags := { Flags.clear with inksm := true, stable := true },
    page := some 51, mapcount := 3 }

def c7Page : DPage := { pageId := 51, pksmFlag := true, pksm := some c7Rmap }

/-- Witness for `c7_destroy_spec` on a concrete tracked, merged page. -/
theorem c7_destroy_spec_witness :
    (c7Page.pksmFlag = true ∧ c7Page.pksm = some c7Rmap
      ∧ c7Rmap.page = some c7Page.pageId)
    ∧ ((pksm_del_anon_page c7Page 10 [] [] []).err = 0
        ∧ (pksm_del_anon_page c7Page 10 [] [] []).page.pksmFlag = false
        ∧ (pksm_del_anon_page c7Page 10 [] [] []).page.pksm = none
        ∧ (pksm_del_anon_page c7Page 10 [] [] []).pages_sharing
            = 10 - (if 0 < c7Rmap.mapcount then c7Rmap.mapcount else 0)
        ∧ ((c7Rmap.flags.newlist = true ∨ c7Rmap.flags.rescan = true) →
            (pksm_del_anon_page c7Page 10 [] [] []).freedRmap = true
            ∧ (pksm_del_anon_page c7Page 10 [] [] []).rmap = none
            ∧ (pksm_del_anon_page c7Page 10 [] [] []).newList
                = List.erase [] c7Rmap.id
            ∧ (pksm_del_anon_page c7Page 10 [] [] []).rescanList
                = List.erase [] c7Rmap.id
            ∧ (pksm_del_anon_page c7Page 10 [] [] []).delList = [])
        ∧ (c7Rmap.flags.newlist = false → c7Rmap.flags.rescan = false →
            (pksm_del_anon_page c7Page 10 [] [] []).freedRmap = false
            ∧ (pksm_del_anon_page c7Page 10 [] [] []).delList = [] ++ [c7Rmap.id]
            ∧ ∃ r' : DRmap, (pksm_del_anon_page c7Page 10 [] [] []).rmap = some r'
                ∧ r'.flags.dellist = true ∧ r'.page = none)) :=
  ⟨⟨by decide, by decide, by decide⟩,
   (c7_destroy_spec c7Page 10 [] [] []).2 c7Rmap (by decide) (by decide) (by decide)⟩

/-! ## Zero fast path (pksm.c `find_zero_page_hash` lines 1591-1599,
`pksm_merge_zero_page` lines 1601-1613, `try_to_merge_zero_page` lines
1616-1649, `cmp_and_merge_zero_page` lines 1651-1660, and the candidate
step `cmp_and_merge_page` lines 1673-1750)

Merge outcomes are the `PKSM_FAULT_*` codes.  A mapping (`vm_area_struct`
visited by `pksm_rmap_walk`) is modelled by the outcome of the host
primitives on it: `eligible` is `vma_can_enter` together with a valid
`vma_address`, `wp` is the `write_protect_page` result, `rep` the
`replace_page` result. -/

inductive Fault where
  | success : Fault
  | drop : Fault
  | tryAgain : Fault
  | keep : Fault
deriving DecidableEq, Repr

structure ZMapping where
  eligible : Bool
  wp : Fault
  rep : Fault
deriving DecidableEq, Repr

/-- `pksm_merge_zero_page(page, vma, addr, kpage)`: write-protect the pte,
and only if `is_page_full_zero(page)` holds call `replace_page` towards
the canonical zero frame.  Returns the fault code and whether the mapping
was replaced. -/
def pksm_merge_zero_page (fullZero : Bool) (m : ZMapping) : Fault × Bool :=
  if m.wp = .success then
    if fullZero then (m.rep, m.rep = .success) else (.success, false)
  else (m.wp, false)

/-- `pksm_rmap_walk(page, pksm_merge_zero_page, zero_page)`: `ret` starts
as `PKSM_FAULT_DROP`; the walk breaks on an ineligible mapping keeping the
previous `ret` and stops at the first non-SUCCESS result.  Also counts the
mappings actually replaced. -/
def pksm_rmap_walk_zero (fullZero : Bool) : Fault → Nat → List ZMapping → Fault × Nat
  | ret, cnt, [] => (ret, cnt)
  | ret, cnt, m :: rest =>
    if !m.eligible then (ret, cnt)
    else
      let step := pksm_merge_zero_page fullZero m
      let cnt1 := cnt + (if step.2 then 1 else 0)
      if step.1 ≠ .success then (step.1, cnt1)
      else pksm_rmap_walk_zero fullZero step.1 cnt1 rest

structure ZeroCand where
  fullZero : Bool
  pageAnon : Bool
  trylockOk : Bool
  transHugeSplitFail : Bool
  anonVmaOk : Bool
  mappings : List ZMapping
deriving DecidableEq, Repr

/-- `try_to_merge_zero_page(page)`: transparent-huge split, `PageAnon` and
`trylock_page` gates, then the rmap walk (whose own preamble re-checks
`PageAnon` and takes the anon_vma lock). -/
def try_to_merge_zero_page (c : ZeroCand) : Fault × Nat :=
  if c.transHugeSplitFail then (.drop, 0)
  else if !c.pageAnon then (.drop, 0)
  else if !c.trylockOk then (.drop, 0)
  else
    let w :=
      if !c.pageAnon || !c.anonVmaOk then ((Fault.drop), (0 : Nat))
      else pksm_rmap_walk_zero c.fullZero .drop 0 c.mappings
    if w.1 ≠ .success then w else (.success, w.2)

/-- `cmp_and_merge_zero_page(page)`: run the merge only when the stored
hash equals the cached zero-page hash (`find_zero_page_hash`); the first
component is true iff the function returns 0 (merged). -/
def cmp_and_merge_zero_page (zeroHash stored : Nat) (c : ZeroCand) : Bool × Nat :=
  if stored = zeroHash then
    let w := try_to_merge_zero_page c
    (w.1 = .success, w.2)
  else (false, 0)

structure Cand where
  validRmap : Bool
  pageKsm : Bool
  inStableTree : Bool
  initChecksum : Bool
  freshChecksum : Nat
  storedChecksum : Nat
  zero : ZeroCand
  stableFound : Bool
  mergeWithRes : Fault
  unstableFound : Bool
  unstableBailed : Bool
  mergeTwoRes : Fault
  insertRes : Fault
deriving DecidableEq, Repr

structure CMPOut where
  ret : Fault
  zeroMerged : Bool
  zeroReplaced : Nat
  stableSearched : Bool
  stableInserted : Bool
  unstableInserted : Bool
  stableAppended : Nat
deriving DecidableEq, Repr

/-- The tree half of `cmp_and_merge_page`, reached only when the zero fast
path did not merge: the stable-tree search (merge + append on a hit), and
otherwise the unstable search-or-insert (two-way merge, peer removal,
stable insert and two appends on a hit; plain unstable insertion at a
terminal slot unless the descent bailed out on an acquire failure). -/
def cmp_and_merge_trees (zeroReplaced : Nat) (c : Cand) : CMPOut :=
  if c.stableFound then
    if c.mergeWithRes = .success then
      ⟨.success, false, zeroReplaced, true, false, false, 1⟩
    else ⟨c.mergeWithRes, false, zeroReplaced, true, false, false, 0⟩
  else if c.unstableBailed then
    ⟨.success, false, zeroReplaced, true, false, false, 0⟩
  else if c.unstableFound then
    if c.mergeTwoRes = .success then
      if c.insertRes = .success then
        ⟨.success, false, zeroReplaced, true, true, false, 2⟩
      else ⟨c.insertRes, false, zeroReplaced, true, false, false, 0⟩
    else ⟨c.mergeTwoRes, false, zeroReplaced, true, false, false, 0⟩
  else
    ⟨.success, false, zeroReplaced, true, false, true, 0⟩

/-- `cmp_and_merge_page(page, rmap_item, init_checksum)`: validity gates,
optional re-hash, the zero fast path with its early `return 0`, then the
tree half.  The output records which actions happened. -/
def cmp_and_merge_page (zeroHash : Nat) (c : Cand) : CMPOut :=
  if !c.validRmap then
    ⟨.drop, false, 0, false, false, false, 0⟩
  else if c.pageKsm || c.inStableTree then
    ⟨.drop, false, 0, false, false, false, 0⟩
  else
    let stored := if c.initChecksum then c.freshChecksum else c.storedChecksum
    let z := cmp_and_merge_zero_page zeroHash stored c.zero
    if z.1 then ⟨.success, true, z.2, false, false, false, 0⟩
    else cmp_and_merge_trees z.2 c

theorem cmp_and_merge_trees_fields (z2 : Nat) (c : Cand) :
    (cmp_and_merge_trees z2 c).zeroMerged = false
    ∧ (cmp_and_merge_trees z2 c).stableSearched = true
    ∧ (cmp_and_merge_trees z2 c).zeroReplaced = z2 := by
  unfold cmp_and_merge_trees
  refine ⟨?_, ?_, ?_⟩ <;>
    (repeat' split) <;> rfl

theorem pksm_rmap_walk_zero_count (ms : List ZMapping) :
    ∀ (ret : Fault) (cnt : Nat),
      (pksm_rmap_walk_zero false ret cnt ms).2 = cnt := by
  induction ms with
  | nil =>
    intro ret cnt
    rfl
  | cons m rest ih =>
    intro ret cnt
    by_cases he : m.eligible
    · by_cases hw : m.wp = .success <;>
        simp [pksm_rmap_walk_zero, pksm_merge_zero_page, he, hw, ih]
    · simp [pksm_rmap_walk_zero, he]

theorem try_to_merge_zero_page_count (c : ZeroCand) (h : c.fullZero = false) :
    (try_to_merge_zero_page c).2 = 0 := by
  unfold try_to_merge_zero_page
  by_cases h1 : c.transHugeSplitFail
  · simp [h1]
  · by_cases h2 : c.pageAnon
    · by_cases h3 : c.trylockOk
      · by_cases h4 : c.anonVmaOk
        · simp only [h1, h2, h3, h4, Bool.not_true, Bool.false_eq_true, if_false,
            Bool.or_self, h]
          have hcnt := pksm_rmap_walk_zero_count c.mappings .drop 0
          split <;> simp [hcnt]
        · simp [h1, h2, h3, h4]
      · simp [h1, h2, h3]
    · simp [h1, h2]

/-- C8: in the candidate step, a mapping is redirected to the canonical
zero frame only when the stored hash equals `ZERO_HASH` and the
authoritative byte check `is_full_zero` holds — a hash match alone never
replaces anything — and a successful zero merge returns before the stable
search, so the page is inserted into neither tree in that step. -/
theorem c8_zero_path_spec (zeroHash : Nat) (c : Cand) :
    (0 < (cmp_and_merge_page zeroHash c).zeroReplaced →
      (if c.initChecksum then c.freshChecksum else c.storedChecksum) = zeroHash
      ∧ c.zero.fullZero = true)
    ∧ ((cmp_and_merge_page zeroHash c).zeroMerged = true →
      (cmp_and_merge_page zeroHash c).stableSearched = false
      ∧ (cmp_and_merge_page zeroHash c).stableInserted = false
      ∧ (cmp_and_merge_page zeroHash c).unstableInserted = false
      ∧ (cmp_and_merge_page zeroHash c).stableAppended = 0)
    ∧ ((cmp_and_merge_page zeroHash c).stableSearched = true →
      (cmp_and_merge_page zeroHash c).zeroMerged = false) := by
  have hz : ∀ stored : Nat,
      0 < (cmp_and_merge_zero_page zeroHash stored c.zero).2 →
      stored = zeroHash ∧ c.zero.fullZero = true := by
    intro stored hpos
    unfold cmp_and_merge_zero_page at hpos
    by_cases hh : stored = zeroHash
    · refine ⟨hh, ?_⟩
      by_cases hf : c.zero.fullZero
      · exact hf
      · exfalso
        have h0 : (try_to_merge_zero_page c.zero).2 = 0 :=
          try_to_merge_zero_page_count c.zero (by simpa using hf)
        rw [hh] at hpos
        simp [h0] at hpos
    · simp [hh] at hpos
  unfold cmp_and_merge_page
  by_cases h1 : c.validRmap
  · by_cases h2 : c.pageKsm || c.inStableTree
    · simp [h1, h2]
    · simp only [h1, h2, Bool.not_true, Bool.false_eq_true, if_false]
      set stored := if c.initChecksum then c.freshChecksum else c.storedChecksum with hst
      obtain ⟨hf1, hf2, hf3⟩ := cmp_and_merge_trees_fields
        (cmp_and_merge_zero_page zeroHash stored c.zero).2 c
      by_cases hz1 : (cmp_and_merge_zero_page zeroHash stored c.zero).1
      · refine ⟨?_, ?_, ?_⟩
        · intro hpos
          simp only [hz1, if_true] at hpos
          exact hz stored hpos
        · intro _
          simp [hz1]
        · intro hsearch
          simp only [hz1, if_true] at hsearch
          simp at hsearch
      · refine ⟨?_, ?_, ?_⟩
        · intro hpos
          simp only [hz1, if_false, Bool.false_eq_true] at hpos
          rw [hf3] at hpos
          exact hz stored hpos
        · intro hm
          simp only [hz1, if_false, Bool.false_eq_true] at hm
          rw [hf1] at hm
          simp at hm
        · intro _
          simp only [hz1, if_false, Bool.false_eq_true]
          exact hf1
  · simp [h1]

def c8ZeroCand : ZeroCand :=
  { fullZero := true, pageAnon := true, trylockOk := true,
    transHugeSplitFail := false, anonVmaOk := true,
    mappings := [{ eligible := true, wp := .success, rep := .success }] }

def c8Cand : Cand :=
  { validRmap := true, pageKsm := false, inStableTree := false,
    initChecksum := false, freshChecksum := 0, storedChecksum := 77,
    zero := c8ZeroCand, stableFound := false, mergeWithRes := .drop,
    unstableFound := false, unstableBailed := false, mergeTwoRes := .drop,
    insertRes := .drop }

/-- Witness for `c8_zero_path_spec`: a genuinely all-zero page whose
stored hash equals the zero hash, with one eligible mapping, is replaced
and merged without touching either tree. -/
theorem c8_zero_path_spec_witness :
    (0 < (cmp_and_merge_page 77 c8Cand).zeroReplaced
      ∧ ((if c8Cand.initChecksum then c8Cand.freshChecksum
          else c8Cand.storedChecksum) = 77
        ∧ c8Cand.zero.fullZero = true))
    ∧ ((cmp_and_merge_page 77 c8Cand).zeroMerged = true
      ∧ ((cmp_and_merge_page 77 c8Cand).stableSearched = false
        ∧ (cmp_and_merge_page 77 c8Cand).stableInserted = false
        ∧ (cmp_and_merge_page 77 c8Cand).unstableInserted = false
        ∧ (cmp_and_merge_page 77 c8Cand).stableAppended = 0)) :=
  ⟨⟨by decide, (c8_zero_path_spec 77 c8Cand).1 (by decide)⟩,
   ⟨by decide, (c8_zero_path_spec 77 c8Cand).2.1 (by decide)⟩⟩

/-! ## Unstable tree / checksum-list coupling (pksm.c
`remove_rmap_item_from_tree` lines 753-796 and the terminal insertion of
`unstable_tree_search_insert`, lines 1532-1540)

`RItem.rbLinked` is `!RB_EMPTY_NODE(&rmap_item->node)`; `TreeLists` holds
the two trees (as id lists), the checksum FIFO and the two counters. -/

structure RItem where
  id : Nat
  flags : Flags
  rbLinked : Bool
  anchors : List Nat
deriving DecidableEq, Repr

structure TreeLists where
  stableIds : List Nat
  unstableIds : List Nat
  checksumList : List Nat
  pages_shared : Nat
  pages_unshared : Nat
deriving DecidableEq, Repr

/-- `remove_rmap_item_from_tree(rmap_item, free_anon)`: on STABLE, erase
from the stable tree; on UNSTABLE, erase from the unstable tree and — when
`CHECKSUM_LIST_FLAG` is set — unlink from the checksum list and clear the
flag; finally, when `free_anon` and the anchor list is non-empty, release
every anchor. -/
def remove_rmap_item_from_tree (freeAnon : Bool) (r : RItem) (e : TreeLists) :
    RItem × TreeLists :=
  let step1 : RItem × TreeLists :=
    if r.flags.stable then
      if r.rbLinked then
        ({ r with flags := { r.flags with stable := false }, rbLinked := false },
         { e with stableIds := e.stableIds.erase r.id,
                  pages_shared := e.pages_shared - 1 })
      else (r, e)
    else if r.flags.unstable then
      let step0 : RItem × TreeLists :=
        if r.rbLinked then
          ({ r with flags := { r.flags with unstable := false }, rbLinked := false },
           { e with unstableIds := e.unstableIds.erase r.id,
                    pages_unshared := e.pages_unshared - 1 })
        else (r, e)
      if step0.1.flags.checksumList then
        ({ step0.1 with flags := { step0.1.flags with checksumList := false } },
         { step0.2 with checksumList := step0.2.checksumList.erase step0.1.id })
      else step0
    else (r, e)
  if freeAnon && !step1.1.anchors.isEmpty then
    ({ step1.1 with anchors := [] }, step1.2)
  else step1

/-- The terminal branch of `unstable_tree_search_insert`: link the rmap
into the unstable tree, bump `ksm_pages_unshared`, append it to the
checksum FIFO and set `UNSTABLE_FLAG | CHECKSUM_LIST_FLAG`. -/
def unstable_tree_link (r : RItem) (e : TreeLists) : RItem × TreeLists :=
  if !r.flags.unstable then
    ({ r with flags := { r.flags with unstable := true, checksumList := true },
              rbLinked := true },
     { e with unstableIds := e.unstableIds ++ [r.id],
              pages_unshared := e.pages_unshared + 1,
              checksumList := e.checksumList ++ [r.id] })
  else (r, e)

theorem not_mem_erase_of_count_le_one {l : List Nat} {a : Nat}
    (h : l.count a ≤ 1) : a ∉ l.erase a := by
  intro hmem
  have h1 : 0 < (l.erase a).count a := List.count_pos_iff.mpr hmem
  have h2 : (l.erase a).count a = l.count a - 1 := List.count_erase_self a l
  omega

/-- C9: removing an unstable-tree rmap via `remove_rmap_item_from_tree`
always also takes it off the checksum list and clears its
`CHECKSUM_LIST_FLAG` (and clears `UNSTABLE_FLAG`, erasing it from the
tree); conversely the terminal insertion of `unstable_tree_search_insert`
links the rmap into the unstable tree and appends it to the checksum list
with both flags set. -/
theorem c9_checksum_list_coupling :
    (∀ (freeAnon : Bool) (r : RItem) (e : TreeLists),
      r.flags.unstable = true → r.flags.stable = false →
      (r.flags.checksumList = true ↔ r.id ∈ e.checksumList) →
      e.checksumList.count r.id ≤ 1 →
      (remove_rmap_item_from_tree freeAnon r e).1.flags.checksumList = false
      ∧ (remove_rmap_item_from_tree freeAnon r e).1.id = r.id
      ∧ r.id ∉ (remove_rmap_item_from_tree freeAnon r e).2.checksumList
      ∧ (r.rbLinked = true →
          (remove_rmap_item_from_tree freeAnon r e).1.flags.unstable = false
          ∧ (remove_rmap_item_from_tree freeAnon r e).2.unstableIds
              = e.unstableIds.erase r.id))
    ∧ (∀ (r : RItem) (e : TreeLists), r.flags.unstable = false →
      (unstable_tree_link r e).1.flags.unstable = true
      ∧ (unstable_tree_link r e).1.flags.checksumList = true
      ∧ (unstable_tree_link r e).1.rbLinked = true
      ∧ r.id ∈ (unstable_tree_link r e).2.checksumList
      ∧ r.id ∈ (unstable_tree_link r e).2.unstableIds
      ∧ (unstable_tree_link r e).2.pages_unshared = e.pages_unshared + 1) := by
  constructor
  · intro freeAnon r e hU hS hiff hcount
    have hne : r.id ∉ e.checksumList.erase r.id :=
      not_mem_erase_of_count_le_one hcount
    by_cases hrb : r.rbLinked
    · by_cases hcl : r.flags.checksumList
      · by_cases hfa : freeAnon && !r.anchors.isEmpty <;>
          simp [remove_rmap_item_from_tree, hU, hS, hrb, hcl, hfa, hne]
      · have hnm : r.id ∉ e.checksumList := fun hm => hcl (hiff.mpr hm)
        by_cases hfa : freeAnon && !r.anchors.isEmpty <;>
          simp [remove_rmap_item_from_tree, hU, hS, hrb, hcl, hfa, hnm]
    · by_cases hcl : r.flags.checksumList
      · by_cases hfa : freeAnon && !r.anchors.isEmpty <;>
          simp [remove_rmap_item_from_tree, hU, hS, hrb, hcl, hfa, hne]
      · have hnm : r.id ∉ e.checksumList := fun hm => hcl (hiff.mpr hm)
        by_cases hfa : freeAnon && !r.anchors.isEmpty <;>
          simp [remove_rmap_item_from_tree, hU, hS, hrb, hcl, hfa, hnm]
  · intro r e hU
    simp [unstable_tree_link, hU]

def c9Rmap : RItem :=
  { id := 60, flags := c4Flags, rbLinked := true, anchors := [] }

def c9Lists : TreeLists :=
  { stableIds := [], unstableIds := [60, 61], checksumList := [60, 61],
    pages_shared := 0, pages_unshared := 2 }

def c9Fresh : RItem :=
  { id := 62, flags := { Flags.clear with inksm := true }, rbLinked := false,
    anchors := [] }

/-- Witness for `c9_checksum_list_coupling` at a concrete two-entry
unstable tree. -/
theorem c9_checksum_list_coupling_witness :
    ((c9Rmap.flags.unstable = true ∧ c9Rmap.flags.stable = false
      ∧ (c9Rmap.flags.checksumList = true ↔ c9Rmap.id ∈ c9Lists.checksumList)
      ∧ c9Lists.checksumList.count c9Rmap.id ≤ 1)
    ∧ ((remove_rmap_item_from_tree false c9Rmap c9Lists).1.flags.checksumList = false
      ∧ (remove_rmap_item_from_tree false c9Rmap c9Lists).1.id = c9Rmap.id
      ∧ c9Rmap.id ∉ (remove_rmap_item_from_tree false c9Rmap c9Lists).2.checksumList
      ∧ (c9Rmap.rbLinked = true →
          (remove_rmap_item_from_tree false c9Rmap c9Lists).1.flags.unstable = false
          ∧ (remove_rmap_item_from_tree false c9Rmap c9Lists).2.unstableIds
              = c9Lists.unstableIds.erase c9Rmap.id)))
    ∧ ((c9Fresh.flags.unstable = false)
    ∧ ((unstable_tree_link c9Fresh c9Lists).1.flags.unstable = true
      ∧ (unstable_tree_link c9Fresh c9Lists).1.flags.checksumList = true
      ∧ (unstable_tree_link c9Fresh c9Lists).1.rbLinked = true
      ∧ c9Fresh.id ∈ (unstable_tree_link c9Fresh c9Lists).2.checksumList
      ∧ c9Fresh.id ∈ (unstable_tree_link c9Fresh c9Lists).2.unstableIds
      ∧ (unstable_tree_link c9Fresh c9Lists).2.pages_unshared
          = c9Lists.pages_unshared + 1)) :=
  ⟨⟨⟨by decide, by decide, by decide, by decide⟩,
    c9_checksum_list_coupling.1 false c9Rmap c9Lists (by decide) (by decide)
      (by decide) (by decide)⟩,
   ⟨by decide, c9_checksum_list_coupling.2 c9Fresh c9Lists (by decide)⟩⟩

end PKSM
